import Mathlib

/-!
Verification of the root-acceptance and settlement-orchestration subsystem of
the zerok-app client (TypeScript sources under web/src/lib and related modules).

The development shallowly embeds the relevant TypeScript functions as Lean
definitions over lists of byte values (Nat, each in 0..255) and explicit state
records, and proves the specified properties about them.  External primitives
(the Poseidon hash, SHA-256 via the WebCrypto API, and program-address
derivation) are passed as function parameters, exactly as they are opaque
collaborators of the client code.
-/

set_option maxRecDepth 20000

namespace ZeroK

/-! ## Byte-level helpers

Models of the byte manipulation idioms used throughout the client:
JavaScript Buffer.slice / Uint8Array.set / DataView little-endian writes and
the hex-based big-endian 32-byte encoders in sdk code.
-/

/-- Model of Buffer.slice(off, off + len): JavaScript slicing clamps at the end
of the buffer, which take/drop reproduces. -/
def slice (data : List Nat) (off len : Nat) : List Nat :=
  (data.drop off).take len

/-- Big-endian 32-byte encoding of a value below 2 to the 256.  This is what the
hex-string based encoders (fieldToBytesBE in sdk/poseidon.ts and toBE32 in
sdk/serialization.ts) produce on that domain: the i-th byte is the i-th
base-256 digit from the most significant end. -/
def natToBE32 (x : Nat) : List Nat :=
  (List.range 32).map (fun i => x / 256 ^ (31 - i) % 256)

/-- Big-endian interpretation of a byte list as an integer, the hex-concatenate
then BigInt conversion used by bytesToFieldBE and addressToBE32Parts. -/
def beNat (l : List Nat) : Nat :=
  l.foldl (fun acc b => acc * 256 + b) 0

/-- Little-endian 8-byte encoding, the model of DataView.setBigUint64 with
littleEndian set to true (which wraps its argument modulo 2 to the 64; the
byte formula below agrees with that wrap since only the low 8 digits appear). -/
def u64le (x : Nat) : List Nat :=
  (List.range 8).map (fun i => x / 256 ^ i % 256)

/-- Little-endian read of up to 8 bytes; Buffer.readBigUInt64LE throws when
fewer than 8 bytes are available, modeled with Except. -/
def readU64LE (l : List Nat) : Except Unit Nat :=
  if l.length < 8 then .error ()
  else .ok (beNat l.reverse)

theorem natToBE32_length (x : Nat) : (natToBE32 x).length = 32 := by
  simp [natToBE32]

theorem u64le_length (x : Nat) : (u64le x).length = 8 := by
  simp [u64le]

/-! ## Root acceptance (web/src/lib/root-acceptance.ts)

Constants from protocol-constants: CURRENT_ROOT_OFFSET 688, ROOT_HISTORY_OFFSET
720, ROOT_SIZE 32, STATE_ROOT_HISTORY_SIZE 256, SHARD_ENTRIES_OFFSET 16,
ROOT_ENTRY_SIZE 40, SHARD_CAPACITY 128.

Account reads go through executeWithRotation and can throw; a read is modeled
as an Except value carried in the pool-state record.  The state account may be
absent (getAccountInfo returning null) and each shard account may be absent
(lazy allocation), hence the Option layers.
-/

/-- Source enum RootSource from protocol-constants. -/
inductive RootSource where
  | state_history
  | sharded_ring
  | legacy_ring
  | not_found
deriving DecidableEq, Repr

/-- Source interface RootAcceptanceResult. -/
structure RootAcceptanceResult where
  found : Bool
  source : RootSource
  shardIndex : Option Nat := none
deriving DecidableEq, Repr

/-- Pool state as seen through the two account reads performed by
isAcceptedRoot: the state-account read and the batched shard read, each of
which may throw (error) or succeed; plus the configured shard addresses. -/
structure PoolReadState where
  stateRead : Except Unit (Option (List Nat))
  shardPdas : List String
  shardsRead : Except Unit (List (Option (List Nat)))

/-- Predicate for the zero/uninitialized root slots skipped by the history scan
(historyRoot.every b equals 0). -/
def allZero (l : List Nat) : Bool :=
  l.all (fun b => b == 0)

/-- Match of history slot i against the root: the slot is skipped when all zero,
otherwise compared bytewise. -/
def historySlotHit (data root : List Nat) (i : Nat) : Bool :=
  let h := slice data (720 + 32 * i) 32
  !allZero h && h == root

/-- Model of checkStateRootHistory: the internal try/catch turns a throwing
state read into a not-found result for this tier; a missing account is also
not-found.  Otherwise the current root is compared first (fast path), then the
256-slot history array is scanned skipping zero slots. -/
def checkStateRootHistory (stateRead : Except Unit (Option (List Nat)))
    (root : List Nat) : RootAcceptanceResult :=
  match stateRead with
  | .error _ => { found := false, source := .not_found }
  | .ok none => { found := false, source := .not_found }
  | .ok (some data) =>
    if slice data 688 32 == root then
      { found := true, source := .state_history }
    else if (List.range 256).any (historySlotHit data root) then
      { found := true, source := .state_history }
    else
      { found := false, source := .not_found }

/-- Scan of the entries of one shard account, in entry order; a slot value of
zero marks an uninitialized entry and is skipped.  Reading the 8 slot bytes
throws when the account data is too short (Buffer.readBigUInt64LE). -/
def scanEntries (data root : List Nat) : List Nat → Except Unit Bool
  | [] => .ok false
  | i :: rest => do
    let entryRoot := slice data (16 + 40 * i) 32
    let slotBytes := slice data (16 + 40 * i + 32) 8
    let slot ← readU64LE slotBytes
    if slot != 0 && entryRoot == root then .ok true
    else scanEntries data root rest

/-- Scan of the shard accounts in index order (checkShardedRootRing main loop);
unallocated shards are skipped, the first shard containing the root wins. -/
def scanShards (root : List Nat) : List (Option (List Nat)) → Nat → Except Unit RootAcceptanceResult
  | [], _ => .ok { found := false, source := .not_found }
  | none :: rest, k => scanShards root rest (k + 1)
  | some data :: rest, k => do
    let hit ← scanEntries data root (List.range 128)
    if hit then .ok { found := true, source := .sharded_ring, shardIndex := some k }
    else scanShards root rest (k + 1)

/-- Model of checkShardedRootRing: with no configured shard addresses the check
is skipped; otherwise the batched shard read (which may throw, uncaught in this
function) is scanned shard by shard. -/
def checkShardedRootRing (ps : PoolReadState) (root : List Nat) :
    Except Unit RootAcceptanceResult :=
  if ps.shardPdas.isEmpty then .ok { found := false, source := .not_found }
  else do
    let infos ← ps.shardsRead
    scanShards root infos 0

/-- The result of isAcceptedRoot together with whether the shard-account fetch
was issued (the ring tier was entered with configured shards). -/
structure AcceptanceOutcome where
  res : RootAcceptanceResult
  shardsFetched : Bool
deriving DecidableEq, Repr

/-- Model of isAcceptedRoot: length check on the decoded root, state-history
tier first, sharded ring second, and a top-level catch that converts any
escaping exception (in particular a throwing shard read) into not-found. -/
def isAcceptedRoot (ps : PoolReadState) (root : List Nat) : AcceptanceOutcome :=
  if root.length ≠ 32 then
    { res := { found := false, source := .not_found }, shardsFetched := false }
  else
    let historyResult := checkStateRootHistory ps.stateRead root
    if historyResult.found then
      { res := historyResult, shardsFetched := false }
    else
      let fetched := !ps.shardPdas.isEmpty
      match checkShardedRootRing ps root with
      | .error _ =>
        { res := { found := false, source := .not_found }, shardsFetched := fetched }
      | .ok shardedResult =>
        if shardedResult.found then
          { res := shardedResult, shardsFetched := fetched }
        else
          { res := { found := false, source := .not_found }, shardsFetched := fetched }

/-! ### Specification predicates for the two acceptance tiers -/

/-- State-history hit: the root equals the current root, or some non-zero
history slot matches it. -/
def stateHitB (data root : List Nat) : Bool :=
  slice data 688 32 == root || (List.range 256).any (historySlotHit data root)

/-- Entry-level hit inside one shard: entry i matches the root and its
sequence number (slot) is non-zero. -/
def entryHit (data root : List Nat) (i : Nat) : Bool :=
  beNat (slice data (16 + 40 * i + 32) 8).reverse != 0
    && slice data (16 + 40 * i) 32 == root

/-- Bind of a successful Except value reduces to the continuation. -/
theorem okBind {α β ε : Type} (v : α) (f : α → Except ε β) :
    (Except.ok v >>= f) = f v := rfl

/-- Bind of a failed Except value short-circuits. -/
theorem errBind {α β ε : Type} (e : ε) (f : α → Except ε β) :
    (Except.error e >>= f) = Except.error e := rfl

/-- Shard-level hit: some of the 128 entries of this shard matches. -/
def entriesHit (data root : List Nat) : Bool :=
  (List.range 128).any (entryHit data root)

/-- Well-formed shard data: long enough to cover the 16-byte header plus 128
entries of 40 bytes. -/
def shardWF (data : List Nat) : Prop :=
  5136 ≤ data.length

theorem slice_length (data : List Nat) (off len : Nat) :
    (slice data off len).length = min len (data.length - off) := by
  simp [slice]

theorem scanEntries_eq (data root : List Nat) (l : List Nat)
    (wf : ∀ i ∈ l, 16 + 40 * i + 40 ≤ data.length) :
    scanEntries data root l = .ok (l.any (entryHit data root)) := by
  induction l with
  | nil => rfl
  | cons i rest ih =>
    have hlen : (slice data (16 + 40 * i + 32) 8).length = 8 := by
      have h := wf i (by simp)
      rw [slice_length]
      omega
    have hread : readU64LE (slice data (16 + 40 * i + 32) 8) =
        .ok (beNat (slice data (16 + 40 * i + 32) 8).reverse) := by
      simp [readU64LE, hlen]
    have ih2 : scanEntries data root rest = .ok (rest.any (entryHit data root)) :=
      ih (fun j hj => wf j (List.mem_cons_of_mem _ hj))
    have hcond : (beNat (slice data (16 + 40 * i + 32) 8).reverse != 0
        && slice data (16 + 40 * i) 32 == root) = entryHit data root i := rfl
    simp only [scanEntries, hread, okBind, hcond, List.any_cons, ih2]
    cases hcase : entryHit data root i
    · simp [hcase]
    · simp [hcase]

/-- Shard j (as delivered by the batched read) contains the root. -/
def shardHit (infos : List (Option (List Nat))) (root : List Nat) (j : Nat) : Prop :=
  ∃ d, infos.get? j = some (some d) ∧ entriesHit d root = true

theorem scanShards_notFound (root : List Nat) (infos : List (Option (List Nat))) (k : Nat)
    (wf : ∀ d, some d ∈ infos → shardWF d)
    (hnone : ∀ j, ¬ shardHit infos root j) :
    scanShards root infos k = .ok { found := false, source := .not_found } := by
  induction infos generalizing k with
  | nil => rfl
  | cons o rest ih =>
    have wfr : ∀ d, some d ∈ rest → shardWF d :=
      fun d hd => wf d (List.mem_cons_of_mem _ hd)
    have hrest : ∀ j, ¬ shardHit rest root j := by
      intro j hj
      rcases hj with ⟨d, hd, hhit⟩
      exact hnone (j + 1) ⟨d, by simpa using hd, hhit⟩
    match o with
    | none =>
      simpa [scanShards] using ih (k + 1) wfr hrest
    | some data =>
      have hwf : shardWF data := wf data (List.mem_cons_self _ _)
      have hscan := scanEntries_eq data root (List.range 128)
        (by intro i hi; simp only [List.mem_range] at hi; simp only [shardWF] at hwf; omega)
      have hmiss : entriesHit data root = false := by
        by_contra hcon
        exact hnone 0 ⟨data, rfl, by simpa using hcon⟩
      rw [show entriesHit data root = (List.range 128).any (entryHit data root) from rfl] at hmiss
      simp only [scanShards, hscan, okBind, hmiss]
      simpa using ih (k + 1) wfr hrest

theorem scanShards_found (root : List Nat) (infos : List (Option (List Nat))) (k : Nat)
    (wf : ∀ d, some d ∈ infos → shardWF d)
    (hex : ∃ j, shardHit infos root j) :
    ∃ j, shardHit infos root j ∧ (∀ j' < j, ¬ shardHit infos root j') ∧
      scanShards root infos k =
        .ok { found := true, source := .sharded_ring, shardIndex := some (k + j) } := by
  induction infos generalizing k with
  | nil =>
    rcases hex with ⟨j, d, hd, _⟩
    simp at hd
  | cons o rest ih =>
    have wfr : ∀ d, some d ∈ rest → shardWF d :=
      fun d hd => wf d (List.mem_cons_of_mem _ hd)
    match o with
    | none =>
      have hex2 : ∃ j, shardHit rest root j := by
        rcases hex with ⟨j, d, hd, hhit⟩
        match j with
        | 0 => simp at hd
        | j + 1 => exact ⟨j, d, by simpa using hd, hhit⟩
      rcases ih (k + 1) wfr hex2 with ⟨j, hhit, hmin, hscan⟩
      refine ⟨j + 1, ?_, ?_, ?_⟩
      · rcases hhit with ⟨d, hd, he⟩
        exact ⟨d, by simpa using hd, he⟩
      · intro j' hj'
        match j' with
        | 0 => rintro ⟨d, hd, _⟩; simp at hd
        | j'' + 1 =>
          intro hcon
          rcases hcon with ⟨d, hd, he⟩
          exact hmin j'' (by omega) ⟨d, by simpa using hd, he⟩
      · have harith : k + 1 + j = k + (j + 1) := by omega
        rw [show scanShards root (none :: rest) k = scanShards root rest (k + 1) from rfl,
          hscan, harith]
    | some data =>
      have hwf : shardWF data := wf data (List.mem_cons_self _ _)
      have hscan := scanEntries_eq data root (List.range 128)
        (by intro i hi; simp only [List.mem_range] at hi; simp only [shardWF] at hwf; omega)
      by_cases hhit : entriesHit data root = true
      · refine ⟨0, ⟨data, rfl, hhit⟩, by omega, ?_⟩
        rw [show entriesHit data root = (List.range 128).any (entryHit data root) from rfl] at hhit
        simp [scanShards, hscan, hhit, okBind]
      · have hex2 : ∃ j, shardHit rest root j := by
          rcases hex with ⟨j, d, hd, he⟩
          match j with
          | 0 =>
            simp only [List.get?_cons_zero, Option.some.injEq] at hd
            exact absurd (hd ▸ he) hhit
          | j + 1 => exact ⟨j, d, by simpa using hd, he⟩
        rcases ih (k + 1) wfr hex2 with ⟨j, hh, hmin, hs⟩
        refine ⟨j + 1, ?_, ?_, ?_⟩
        · rcases hh with ⟨d, hd, he⟩
          exact ⟨d, by simpa using hd, he⟩
        · intro j' hj'
          match j' with
          | 0 =>
            rintro ⟨d, hd, he⟩
            simp only [List.get?_cons_zero, Option.some.injEq] at hd
            exact absurd (hd ▸ he) hhit
          | j'' + 1 =>
            intro hcon
            rcases hcon with ⟨d, hd, he⟩
            exact hmin j'' (by omega) ⟨d, by simpa using hd, he⟩
        · have hb : (List.range 128).any (entryHit data root) = false := by
            simpa [entriesHit] using hhit
          have harith : k + 1 + j = k + (j + 1) := by omega
          simp only [scanShards, hscan, okBind, hb]
          rw [if_neg (by simp), hs, harith]

/-- State-tier hit at the level of the state read: the read succeeded, the
account exists and the root is the current root or a non-zero history slot. -/
def stateTierHitB (stateRead : Except Unit (Option (List Nat))) (root : List Nat) : Bool :=
  match stateRead with
  | .ok (some data) => stateHitB data root
  | _ => false

theorem checkStateRootHistory_spec (st : Except Unit (Option (List Nat))) (root : List Nat) :
    checkStateRootHistory st root =
      if stateTierHitB st root then
        { found := true, source := .state_history }
      else
        { found := false, source := .not_found } := by
  match st with
  | .error _ => rfl
  | .ok none => rfl
  | .ok (some data) =>
    simp only [checkStateRootHistory, stateTierHitB, stateHitB]
    by_cases h1 : (slice data 688 32 == root) = true
    · simp [h1]
    · by_cases h2 : (List.range 256).any (historySlotHit data root) = true
      · simp [h1, h2]
      · simp [h1, h2]

/-- Claim C2: for every 32-byte root and every pool state, isAcceptedRoot
checks the state-history tier before the sharded ring: a state-tier hit
(current root or non-zero history slot) yields found with source
state_history and no shard fetch; otherwise a root present in some shard
entry with non-zero sequence number yields found with source sharded_ring and
the index of the first such shard; a root in neither tier yields not_found. -/
theorem claim_C2_isAcceptedRoot_two_tier
    (ps : PoolReadState) (root : List Nat) (infos : List (Option (List Nat)))
    (h32 : root.length = 32)
    (hshards : ps.shardsRead = .ok infos)
    (hpdas : ps.shardPdas ≠ [])
    (wf : ∀ d, some d ∈ infos → shardWF d) :
    (stateTierHitB ps.stateRead root = true →
      isAcceptedRoot ps root =
        { res := { found := true, source := .state_history }, shardsFetched := false })
    ∧ (stateTierHitB ps.stateRead root = false →
        (∃ j, shardHit infos root j) →
        ∃ k, shardHit infos root k ∧ (∀ j < k, ¬ shardHit infos root j) ∧
          isAcceptedRoot ps root =
            { res := { found := true, source := .sharded_ring, shardIndex := some k },
              shardsFetched := true })
    ∧ (stateTierHitB ps.stateRead root = false →
        (∀ j, ¬ shardHit infos root j) →
        isAcceptedRoot ps root =
          { res := { found := false, source := .not_found }, shardsFetched := true }) := by
  have hempty : ps.shardPdas.isEmpty = false := by
    cases hp : ps.shardPdas with
    | nil => exact absurd hp hpdas
    | cons a l => simp [hp]
  refine ⟨?_, ?_, ?_⟩
  · intro hstate
    simp [isAcceptedRoot, h32, checkStateRootHistory_spec, hstate]
  · intro hstate hex
    rcases scanShards_found root infos 0 wf hex with ⟨k, hk, hmin, hscan⟩
    refine ⟨k, hk, hmin, ?_⟩
    simp only [isAcceptedRoot, h32, ne_eq, not_true_eq_false, if_false,
      checkStateRootHistory_spec, hstate, if_neg Bool.false_ne_true,
      checkShardedRootRing, hempty, hshards, okBind]
    simp only [Bool.false_eq_true, if_false, Nat.zero_add] at hscan ⊢
    rw [hscan]
    simp [hempty]
  · intro hstate hnone
    have hscan := scanShards_notFound root infos 0 wf hnone
    simp only [isAcceptedRoot, h32, ne_eq, not_true_eq_false, if_false,
      checkStateRootHistory_spec, hstate, if_neg Bool.false_ne_true,
      checkShardedRootRing, hempty, hshards, okBind]
    simp only [Bool.false_eq_true, if_false] at hscan ⊢
    rw [hscan]
    simp [hempty]

/-- Concrete 32-byte root for the C2 witness. -/
def c2root : List Nat := List.replicate 32 1

/-- Concrete state-account data whose current-root field (offset 688) holds
the witness root. -/
def c2state : List Nat := List.replicate 688 0 ++ c2root

/-- Concrete pool read state for the C2 witness. -/
def c2ps : PoolReadState :=
  { stateRead := .ok (some c2state), shardPdas := ["s"], shardsRead := .ok [] }

theorem claim_C2_witness :
    isAcceptedRoot c2ps c2root =
      { res := { found := true, source := .state_history }, shardsFetched := false } :=
  (claim_C2_isAcceptedRoot_two_tier c2ps c2root []
    (by decide) rfl (by decide)
    (by intro d hd; simp at hd)).1 (by decide)

/-- Concrete 32-byte root for the C10 counterexample. -/
def c10root : List Nat := List.replicate 32 2

/-- Shard account whose entry 0 holds the C10 root with sequence number 1. -/
def c10shard : List Nat := List.replicate 16 0 ++ c10root ++ [1, 0, 0, 0, 0, 0, 0, 0]

/-- Pool read state whose state-account read throws while shard 0 contains the
root. -/
def c10ps : PoolReadState :=
  { stateRead := .error (), shardPdas := ["s0"], shardsRead := .ok [some c10shard] }

/-- Claim C10 counterexample: an execution in which an underlying account read
(the state read) throws does not return not_found — the error is caught inside
the state tier only, the sharded ring is still consulted and the root is
found there.  This refutes the universally quantified claim that every such
failure is reported as not_found. -/
theorem claim_C10_counterexample :
    c10ps.stateRead = .error () ∧
    isAcceptedRoot c10ps c10root =
      { res := { found := true, source := .sharded_ring, shardIndex := some 0 },
        shardsFetched := true } := by
  constructor
  · rfl
  · decide

/-- Claim C10 amended: isAcceptedRoot is total and never propagates an
exception; a root whose decoded byte length is not 32 yields not_found with no
account read; a throwing shard read yields not_found; but a throwing state
read is caught tier-locally (the state tier reports not_found) and execution
falls through to the sharded-ring check, which may still report found. -/
theorem claim_C10_isAcceptedRoot_total
    (ps : PoolReadState) (root : List Nat) (e : Unit) :
    (root.length ≠ 32 →
      isAcceptedRoot ps root =
        { res := { found := false, source := .not_found }, shardsFetched := false })
    ∧ checkStateRootHistory (.error e) root = { found := false, source := .not_found }
    ∧ (root.length = 32 →
        stateTierHitB ps.stateRead root = false →
        ps.shardsRead = .error e →
        (isAcceptedRoot ps root).res = { found := false, source := .not_found }) := by
  refine ⟨?_, rfl, ?_⟩
  · intro hlen
    simp [isAcceptedRoot, hlen]
  · intro h32 hstate herr
    by_cases hempty : ps.shardPdas.isEmpty = true
    · simp [isAcceptedRoot, h32, checkStateRootHistory_spec, hstate,
        checkShardedRootRing, hempty]
    · have hempty2 : ps.shardPdas.isEmpty = false := by
        simpa using hempty
      simp [isAcceptedRoot, h32, checkStateRootHistory_spec, hstate,
        checkShardedRootRing, hempty2, herr, errBind]

/-- Pool read state for the C10 amended-claim witness: shard read throws. -/
def c10wps : PoolReadState :=
  { stateRead := .ok none, shardPdas := ["s0"], shardsRead := .error () }

theorem claim_C10_witness :
    (isAcceptedRoot c10wps (List.replicate 32 3)).res =
      { found := false, source := .not_found } :=
  (claim_C10_isAcceptedRoot_total c10wps (List.replicate 32 3) ()).2.2
    (by decide) (by decide) rfl

/-! ## Proof serialization (web/src/lib/sdk serialization module)

The v2 serialization module defines toBE32 (throwing on values at or above the
BN254 base-field modulus) and serializeProof, which negates the second
coordinate of point A with a double modulo, reorders the G2 limbs of point B
from snarkjs order (c0, c1) to on-chain order (c1, c0), and concatenates
A (64 bytes), B (128 bytes), C (64 bytes).
-/

/-- BN254 base-field modulus, the BN254_P constant of the serialization
module. -/
def BN254_P : Nat :=
  21888242871839275222246405745257275088696311157297823662689037894645226208583

/-- Model of toBE32: values at or above the modulus are rejected (the
additional length-over-64-hex-digits check is unreachable below the modulus). -/
def toBE32 (x : Nat) : Except String (List Nat) :=
  if BN254_P ≤ x then .error "Value exceeds field modulus"
  else .ok (natToBE32 x)

/-- Groth16 proof points as parsed from the snarkjs output: pi_a as two field
coordinates, pi_b as two coordinate pairs in snarkjs (c0, c1) order, pi_c as
two coordinates. -/
structure GrothProof where
  piA0 : Nat
  piA1 : Nat
  piB00 : Nat
  piB01 : Nat
  piB10 : Nat
  piB11 : Nat
  piC0 : Nat
  piC1 : Nat

/-- Negation of the A.y coordinate with the double modulo of the source
(BigInt remainder is truncated division remainder, hence Int.tmod). -/
def negAY (aY : Nat) : Int :=
  (((BN254_P : Int) - (aY : Int)).tmod (BN254_P : Int) + (BN254_P : Int)).tmod (BN254_P : Int)

/-- Model of serializeProof: A with negated y, B limbs swapped within each
coordinate pair, C unchanged; 64 + 128 + 64 bytes. -/
def serializeProof (p : GrothProof) : Except String (List Nat) := do
  let aX := p.piA0
  let aY := (negAY p.piA1).toNat
  let proofA := (← toBE32 aX) ++ (← toBE32 aY)
  let proofB := (← toBE32 p.piB01) ++ (← toBE32 p.piB00)
      ++ (← toBE32 p.piB11) ++ (← toBE32 p.piB10)
  let proofC := (← toBE32 p.piC0) ++ (← toBE32 p.piC1)
  return proofA ++ proofB ++ proofC

theorem negAY_eq (aY : Nat) (h : aY < BN254_P) :
    (negAY aY).toNat = (BN254_P - aY) % BN254_P := by
  rcases Nat.eq_zero_or_pos aY with h0 | hpos
  · subst h0
    decide
  · have h1 : (0 : Int) < (BN254_P : Int) - (aY : Int) := by
      have : (aY : Int) < (BN254_P : Int) := by exact_mod_cast h
      omega
    have h2 : (BN254_P : Int) - (aY : Int) < (BN254_P : Int) := by
      have : (0 : Int) < (aY : Int) := by exact_mod_cast hpos
      omega
    have ht1 : ((BN254_P : Int) - (aY : Int)).tmod (BN254_P : Int)
        = (BN254_P : Int) - (aY : Int) := by
      rw [Int.tmod_eq_emod (by omega) (by positivity)]
      exact Int.emod_eq_of_lt (by omega) h2
    have ht2 : ((BN254_P : Int) - (aY : Int) + (BN254_P : Int)).tmod (BN254_P : Int)
        = (BN254_P : Int) - (aY : Int) := by
      rw [Int.tmod_eq_emod (by omega) (by positivity)]
      have hm : ((BN254_P : Int) - (aY : Int) + (BN254_P : Int) * 1) % (BN254_P : Int)
          = ((BN254_P : Int) - (aY : Int)) % (BN254_P : Int) := Int.add_mul_emod_self_left _ _ _
      simp only [mul_one] at hm
      rw [hm]
      exact Int.emod_eq_of_lt (by omega) h2
    have hfinal : negAY aY = (BN254_P : Int) - (aY : Int) := by
      rw [negAY, ht1, ht2]
    rw [hfinal]
    have hle : aY ≤ BN254_P := le_of_lt h
    have : ((BN254_P : Int) - (aY : Int)).toNat = BN254_P - aY := by
      omega
    rw [this, Nat.mod_eq_of_lt (by omega)]

theorem toBE32_ok (x : Nat) (h : x < BN254_P) : toBE32 x = .ok (natToBE32 x) := by
  simp [toBE32, Nat.not_le.mpr h]

/-- Claim C3: for every Groth16 proof triple with in-range coordinates,
serializeProof returns exactly 256 bytes laid out as 64-byte A, 128-byte B,
64-byte C, with the second A coordinate replaced by its negation modulo the
field prime (computed by the double modulo) and the B coordinate pairs
reordered from (low-limb, high-limb) to (high-limb, low-limb). -/
theorem claim_C3_serializeProof_layout (p : GrothProof)
    (hA0 : p.piA0 < BN254_P) (hA1 : p.piA1 < BN254_P)
    (hB00 : p.piB00 < BN254_P) (hB01 : p.piB01 < BN254_P)
    (hB10 : p.piB10 < BN254_P) (hB11 : p.piB11 < BN254_P)
    (hC0 : p.piC0 < BN254_P) (hC1 : p.piC1 < BN254_P) :
    ∃ out, serializeProof p = .ok out
      ∧ out.length = 256
      ∧ out = (natToBE32 p.piA0 ++ natToBE32 ((BN254_P - p.piA1) % BN254_P))
          ++ (natToBE32 p.piB01 ++ natToBE32 p.piB00
              ++ natToBE32 p.piB11 ++ natToBE32 p.piB10)
          ++ (natToBE32 p.piC0 ++ natToBE32 p.piC1) := by
  have hneg := negAY_eq p.piA1 hA1
  have hlt : (BN254_P - p.piA1) % BN254_P < BN254_P :=
    Nat.mod_lt _ (by decide)
  refine ⟨_, ?_, ?_, rfl⟩
  · simp only [serializeProof, hneg, toBE32_ok _ hA0, toBE32_ok _ hlt,
      toBE32_ok _ hB01, toBE32_ok _ hB00, toBE32_ok _ hB11, toBE32_ok _ hB10,
      toBE32_ok _ hC0, toBE32_ok _ hC1, okBind]
    simp only [List.append_assoc]
    rfl
  · simp [natToBE32_length]

/-- Concrete proof triple for the C3 witness. -/
def c3proof : GrothProof :=
  { piA0 := 1, piA1 := 2, piB00 := 3, piB01 := 4,
    piB10 := 5, piB11 := 6, piC0 := 7, piC1 := 8 }

theorem claim_C3_witness :
    ∃ out, serializeProof c3proof = .ok out
      ∧ out.length = 256
      ∧ out = (natToBE32 c3proof.piA0 ++ natToBE32 ((BN254_P - c3proof.piA1) % BN254_P))
          ++ (natToBE32 c3proof.piB01 ++ natToBE32 c3proof.piB00
              ++ natToBE32 c3proof.piB11 ++ natToBE32 c3proof.piB10)
          ++ (natToBE32 c3proof.piC0 ++ natToBE32 c3proof.piC1) :=
  claim_C3_serializeProof_layout c3proof (by decide) (by decide) (by decide)
    (by decide) (by decide) (by decide) (by decide) (by decide)

/-! ## Witness building (buildWithdrawWitness in the withdrawal module)

The note secrets are stored as decimal strings and parsed with BigInt; they
are modeled directly as their numeric values.  The stored commitment is a hex
string compared case-insensitively against the hex encoding of the recomputed
commitment bytes; since both sides are hex encodings of 32-byte arrays, the
comparison is modeled as byte-list equality.  The Poseidon permutation is the
external circomlibjs primitive and enters as the function parameters
poseidon1 (single input) and poseidon2 (two inputs). -/

/-- Note record (fields used by witness building). -/
structure Note where
  nullifierSecret : Nat
  noteSecret : Nat
  commitment : List Nat
  rootAfter : Nat
  siblings : List Nat
  leafIndex : Nat

/-- Model of addressToBE32Parts: a 32-byte identifier is split into its high
and low 16-byte halves, each read as a big-endian integer (left padding with
zero bytes does not change the value); any other length throws. -/
def addressToBE32Parts (address : List Nat) : Except String (Nat × Nat) :=
  if address.length ≠ 32 then .error "Address must be 32 bytes"
  else .ok (beNat (address.take 16), beNat (address.drop 16))

/-- Output of witness building: the witness map sent to the prover together
with the flag recording whether the commitment-mismatch diagnostic was
emitted (console.error in the source; the function does not throw on it). -/
structure WitnessOut where
  mismatchLogged : Bool
  nullifier : Nat
  secret : Nat
  pathElements : List Nat
  pathIndices : List Nat
  root : Nat
  nullifierHash : Nat
  recipientHigh : Nat
  recipientLow : Nat
  protocolHigh : Nat
  protocolLow : Nat
  fee : Nat
  refund : Nat

/-- Model of buildWithdrawWitness.  The commitment is recomputed from the
stored secrets with the double-input hash and compared with the stored
commitment; on mismatch a diagnostic is logged and execution continues.  The
nullifier hash is the single-input hash of the nullifier (the byte encoding
round-trips through fieldToBytesBE and bytesToFieldBE).  Sibling path
elements are reduced modulo the field prime, path indices are the 20
least-significant bits of the leaf index, and for a zero fee the protocol
identifier is replaced by the default (all-zero) public key. -/
def buildWithdrawWitness (poseidon1 : Nat → Nat) (poseidon2 : Nat → Nat → Nat)
    (note : Note) (recipient protocol : List Nat) (fee refund : Nat) :
    Except String WitnessOut := do
  let nullifier := note.nullifierSecret
  let secret := note.noteSecret
  let computedCommitment := natToBE32 (poseidon2 nullifier secret)
  let commitmentMatches := note.commitment == computedCommitment
  let nullifierHash := beNat (natToBE32 (poseidon1 (beNat (natToBE32 nullifier))))
  let pathElements := note.siblings.map (fun s => s % BN254_P)
  let pathIndices := (List.range 20).map (fun i => note.leafIndex >>> i &&& 1)
  let (recipientHigh, recipientLow) ← addressToBE32Parts recipient
  let protocolForProof := if fee == 0 then List.replicate 32 0 else protocol
  let (protocolHigh, protocolLow) ← addressToBE32Parts protocolForProof
  return {
    mismatchLogged := !commitmentMatches
    nullifier := nullifier
    secret := secret
    pathElements := pathElements
    pathIndices := pathIndices
    root := note.rootAfter
    nullifierHash := nullifierHash
    recipientHigh := recipientHigh
    recipientLow := recipientLow
    protocolHigh := protocolHigh
    protocolLow := protocolLow
    fee := fee
    refund := refund }

/-- Note with a stored commitment that cannot match the recomputed one for the
constant-zero hash. -/
def c1note : Note :=
  { nullifierSecret := 5, noteSecret := 6,
    commitment := 1 :: List.replicate 31 0,
    rootAfter := 0, siblings := [], leafIndex := 0 }

/-- Claim C1 counterexample: witness building does not fail on a commitment
mismatch.  For a note whose stored commitment differs from the recomputed
one, buildWithdrawWitness still returns a witness (only setting the logged
diagnostic flag), refuting the claim that it fails fatally with
CommitmentMismatch and returns no witness. -/
theorem claim_C1_counterexample :
    ∃ w, buildWithdrawWitness (fun _ => 0) (fun _ _ => 0) c1note
        (List.replicate 32 0) (List.replicate 32 0) 1 0 = .ok w
      ∧ w.mismatchLogged = true := by
  refine ⟨_, rfl, ?_⟩
  decide

/-- Claim C1 amended: witness building never raises a CommitmentMismatch
error; for every note and every hash oracle it returns a witness (provided
only the 32-byte identifier splits succeed), and the mismatch between the
stored commitment and the one recomputed via the double-input hash is merely
recorded in the logged-diagnostic flag. -/
theorem claim_C1_commitment_check (poseidon1 : Nat → Nat) (poseidon2 : Nat → Nat → Nat)
    (note : Note) (recipient protocol : List Nat) (fee refund : Nat)
    (hrec : recipient.length = 32) (hprot : protocol.length = 32) :
    ∃ w, buildWithdrawWitness poseidon1 poseidon2 note recipient protocol fee refund = .ok w
      ∧ w.mismatchLogged =
          !(note.commitment == natToBE32 (poseidon2 note.nullifierSecret note.noteSecret)) := by
  have hsplit : addressToBE32Parts recipient =
      .ok (beNat (recipient.take 16), beNat (recipient.drop 16)) := by
    simp [addressToBE32Parts, hrec]
  set pp := if (fee == 0) then List.replicate 32 (0 : Nat) else protocol with hpp
  have hplen : pp.length = 32 := by
    rw [hpp]
    split <;> simp [hprot]
  have hpsplit : addressToBE32Parts pp = .ok (beNat (pp.take 16), beNat (pp.drop 16)) := by
    simp [addressToBE32Parts, hplen]
  refine ⟨{
    mismatchLogged :=
      !(note.commitment == natToBE32 (poseidon2 note.nullifierSecret note.noteSecret))
    nullifier := note.nullifierSecret
    secret := note.noteSecret
    pathElements := note.siblings.map (fun s => s % BN254_P)
    pathIndices := (List.range 20).map (fun i => note.leafIndex >>> i &&& 1)
    root := note.rootAfter
    nullifierHash := beNat (natToBE32 (poseidon1 (beNat (natToBE32 note.nullifierSecret))))
    recipientHigh := beNat (recipient.take 16)
    recipientLow := beNat (recipient.drop 16)
    protocolHigh := beNat (pp.take 16)
    protocolLow := beNat (pp.drop 16)
    fee := fee
    refund := refund }, ?_, rfl⟩
  simp only [buildWithdrawWitness, hsplit, okBind, ← hpp, hpsplit]
  rfl

theorem claim_C1_witness :
    ∃ w, buildWithdrawWitness (fun _ => 0) (fun x y => x + y) c1note
        (List.replicate 32 0) (List.replicate 32 0) 0 0 = .ok w
      ∧ w.mismatchLogged =
          !(c1note.commitment == natToBE32 ((fun x y => x + y) c1note.nullifierSecret c1note.noteSecret)) :=
  claim_C1_commitment_check (fun _ => 0) (fun x y => x + y) c1note
    (List.replicate 32 0) (List.replicate 32 0) 0 0 (by decide) (by decide)

/-! ## Instruction building (buildWithdrawInstruction in the withdrawal module)

Public keys are modeled as their base58 strings.  The SHA-256 digest used for
the method discriminator is the external WebCrypto primitive and the
program-derived nullifier address is the external findProgramAddressSync;
both enter as function parameters. -/

/-- Model of Uint8Array.set(src, off) on a buffer, for writes that stay within
bounds: the bytes at positions off to off + src.length - 1 are overwritten. -/
def setBytes (buf : List Nat) (off : Nat) (src : List Nat) : List Nat :=
  buf.take off ++ src ++ buf.drop (off + src.length)

theorem setBytes_at (pre mid src : List Nat) (off : Nat) (hoff : off = pre.length) :
    setBytes (pre ++ mid) off src = pre ++ (src ++ mid.drop src.length) := by
  subst hoff
  simp [setBytes, List.take_left, List.drop_append, List.append_assoc]

/-- UTF-8 bytes of the discriminator preimage global:withdraw_v2_clean (all
code points are ASCII, so the byte values are the character codes). -/
def withdrawPreimage : List Nat :=
  "global:withdraw_v2_clean".toList.map Char.toNat

/-- Model of the instruction-data assembly: a 348-byte buffer written in
order with the 8-byte discriminator, the 32-byte nullifier hash, the 4-byte
little-endian proof-length prefix with value 256 (written bytewise as
0, 1, 0, 0), the 256-byte proof, the 32-byte root, the 8-byte little-endian
fee and the 8-byte little-endian refund of zero. -/
def buildInstructionData (disc8 nh proof root : List Nat) (fee : Nat) : List Nat :=
  let b0 := List.replicate 348 0
  let b1 := setBytes b0 0 disc8
  let b2 := setBytes b1 8 nh
  let b3 := setBytes b2 40 [0, 1, 0, 0]
  let b4 := setBytes b3 44 proof
  let b5 := setBytes b4 300 root
  let b6 := setBytes b5 332 (u64le fee)
  setBytes b6 340 (u64le 0)

/-- Account metadata entry of a Solana transaction instruction. -/
structure AccountMeta where
  pubkey : String
  isSigner : Bool
  isWritable : Bool
deriving DecidableEq, Repr

/-- Static pool addressing (PoolConfig fields used by instruction building). -/
structure PoolConfig where
  programId : String
  statePda : String
  vaultPda : String
  vkPda : String
  metadataPda : String
  shardPdas : List String

/-- Built instruction: program id, ordered account list, payload bytes. -/
structure InstructionOut where
  programId : String
  keys : List AccountMeta
  data : List Nat
deriving DecidableEq, Repr

/-- System program address constant. -/
def systemProgramId : String := "11111111111111111111111111111111"

/-- Model of computeShardIndex: floor((leafIndex mod 2560) / 128). -/
def computeShardIndex (leafIndex : Nat) : Nat :=
  leafIndex % 2560 / 128

/-- The ten fixed accounts of the protocol-submission withdraw instruction, in
the order of the source keys array. -/
def baseWithdrawKeys (pc : PoolConfig) (nullifierPda recipient protocol : String) :
    List AccountMeta :=
  [ { pubkey := pc.statePda, isSigner := false, isWritable := true },
    { pubkey := pc.vkPda, isSigner := false, isWritable := false },
    { pubkey := nullifierPda, isSigner := false, isWritable := true },
    { pubkey := pc.vaultPda, isSigner := false, isWritable := true },
    { pubkey := recipient, isSigner := false, isWritable := true },
    { pubkey := protocol, isSigner := false, isWritable := true },
    { pubkey := protocol, isSigner := true, isWritable := true },
    { pubkey := systemProgramId, isSigner := false, isWritable := false },
    { pubkey := pc.programId, isSigner := false, isWritable := false },
    { pubkey := pc.metadataPda, isSigner := false, isWritable := false } ]

/-- Model of buildWithdrawInstruction.  The discriminator is the first 8 bytes
of the SHA-256 digest of the preimage; the shard account appended to the
account list depends on the root-acceptance result: the specific shard for a
sharded-ring hit, none for a state-history hit, and the shard computed from
the leaf index when the root was resolved through the recovery daemon (no
local result).  An out-of-range shard index makes the PublicKey constructor
throw, modeled as an error. -/
def buildWithdrawInstruction (sha256 : List Nat → List Nat)
    (derivePda : List Nat → PoolConfig → String)
    (pc : PoolConfig) (note : Note) (recipient protocol : String) (fee : Nat)
    (proof nh root : List Nat) (rootResult : Option RootAcceptanceResult) :
    Except String InstructionOut := do
  let discriminatorBytes := (sha256 withdrawPreimage).take 8
  let data := buildInstructionData discriminatorBytes nh proof root fee
  let nullifierPda := derivePda nh pc
  let targetShardPda : Option String ←
    match rootResult with
    | some r =>
      match r.source, r.shardIndex with
      | .sharded_ring, some k =>
        match pc.shardPdas.get? k with
        | some s => pure (some s)
        | none => throw "invalid shard pda"
      | .state_history, _ => pure none
      | _, _ =>
        match pc.shardPdas.get? (computeShardIndex note.leafIndex) with
        | some s => pure (some s)
        | none => throw "invalid shard pda"
    | none =>
      match pc.shardPdas.get? (computeShardIndex note.leafIndex) with
      | some s => pure (some s)
      | none => throw "invalid shard pda"
  let keys := baseWithdrawKeys pc nullifierPda recipient protocol ++
    (match targetShardPda with
     | some s => [{ pubkey := s, isSigner := false, isWritable := false }]
     | none => [])
  return { programId := pc.programId, keys := keys, data := data }

theorem buildInstructionData_concat (disc8 nh proof root : List Nat) (fee : Nat)
    (hd : disc8.length = 8) (hn : nh.length = 32)
    (hp : proof.length = 256) (hr : root.length = 32) :
    buildInstructionData disc8 nh proof root fee =
      disc8 ++ nh ++ [0, 1, 0, 0] ++ proof ++ root ++ u64le fee ++ u64le 0 := by
  have h0 : setBytes (List.replicate 348 0) 0 disc8 = disc8 ++ List.replicate 340 0 := by
    have := setBytes_at [] (List.replicate 348 0) disc8 0 (by simp)
    simpa [hd, List.drop_replicate] using this
  have h1 : setBytes (disc8 ++ List.replicate 340 0) 8 nh =
      disc8 ++ (nh ++ List.replicate 308 0) := by
    have := setBytes_at disc8 (List.replicate 340 0) nh 8 (by omega)
    simpa [hn, List.drop_replicate] using this
  have h2 : setBytes ((disc8 ++ nh) ++ List.replicate 308 0) 40 [0, 1, 0, 0] =
      (disc8 ++ nh) ++ ([0, 1, 0, 0] ++ List.replicate 304 0) := by
    have := setBytes_at (disc8 ++ nh) (List.replicate 308 0) [0, 1, 0, 0] 40
      (by simp [hd, hn])
    simpa [List.drop_replicate] using this
  have h3 : setBytes ((disc8 ++ nh ++ [0, 1, 0, 0]) ++ List.replicate 304 0) 44 proof =
      (disc8 ++ nh ++ [0, 1, 0, 0]) ++ (proof ++ List.replicate 48 0) := by
    have := setBytes_at (disc8 ++ nh ++ [0, 1, 0, 0]) (List.replicate 304 0) proof 44
      (by simp [hd, hn])
    simpa [hp, List.drop_replicate] using this
  have h4 : setBytes ((disc8 ++ nh ++ [0, 1, 0, 0] ++ proof) ++ List.replicate 48 0) 300 root =
      (disc8 ++ nh ++ [0, 1, 0, 0] ++ proof) ++ (root ++ List.replicate 16 0) := by
    have := setBytes_at (disc8 ++ nh ++ [0, 1, 0, 0] ++ proof) (List.replicate 48 0) root 300
      (by simp [hd, hn, hp])
    simpa [hr, List.drop_replicate] using this
  have h5 : setBytes ((disc8 ++ nh ++ [0, 1, 0, 0] ++ proof ++ root) ++ List.replicate 16 0)
      332 (u64le fee) =
      (disc8 ++ nh ++ [0, 1, 0, 0] ++ proof ++ root) ++ (u64le fee ++ List.replicate 8 0) := by
    have := setBytes_at (disc8 ++ nh ++ [0, 1, 0, 0] ++ proof ++ root) (List.replicate 16 0)
      (u64le fee) 332 (by simp [hd, hn, hp, hr])
    simpa [u64le_length, List.drop_replicate] using this
  have h6 : setBytes ((disc8 ++ nh ++ [0, 1, 0, 0] ++ proof ++ root ++ u64le fee)
      ++ List.replicate 8 0) 340 (u64le 0) =
      (disc8 ++ nh ++ [0, 1, 0, 0] ++ proof ++ root ++ u64le fee) ++ (u64le 0 ++ []) := by
    have := setBytes_at (disc8 ++ nh ++ [0, 1, 0, 0] ++ proof ++ root ++ u64le fee)
      (List.replicate 8 0) (u64le 0) 340 (by simp [hd, hn, hp, hr, u64le_length])
    simpa [u64le_length, List.drop_replicate] using this
  calc buildInstructionData disc8 nh proof root fee
      = setBytes (setBytes (setBytes (setBytes (setBytes (setBytes
          (setBytes (List.replicate 348 0) 0 disc8) 8 nh) 40 [0, 1, 0, 0])
          44 proof) 300 root) 332 (u64le fee)) 340 (u64le 0) := rfl
    _ = disc8 ++ nh ++ [0, 1, 0, 0] ++ proof ++ root ++ u64le fee ++ u64le 0 := by
        rw [h0, h1, show disc8 ++ (nh ++ List.replicate 308 0)
            = (disc8 ++ nh) ++ List.replicate 308 0 by simp [List.append_assoc]]
        rw [h2, show (disc8 ++ nh) ++ ([0, 1, 0, 0] ++ List.replicate 304 0)
            = (disc8 ++ nh ++ [0, 1, 0, 0]) ++ List.replicate 304 0 by simp [List.append_assoc]]
        rw [h3, show (disc8 ++ nh ++ [0, 1, 0, 0]) ++ (proof ++ List.replicate 48 0)
            = (disc8 ++ nh ++ [0, 1, 0, 0] ++ proof) ++ List.replicate 48 0 by
            simp [List.append_assoc]]
        rw [h4, show (disc8 ++ nh ++ [0, 1, 0, 0] ++ proof) ++ (root ++ List.replicate 16 0)
            = (disc8 ++ nh ++ [0, 1, 0, 0] ++ proof ++ root) ++ List.replicate 16 0 by
            simp [List.append_assoc]]
        rw [h5, show (disc8 ++ nh ++ [0, 1, 0, 0] ++ proof ++ root)
              ++ (u64le fee ++ List.replicate 8 0)
            = (disc8 ++ nh ++ [0, 1, 0, 0] ++ proof ++ root ++ u64le fee)
              ++ List.replicate 8 0 by simp [List.append_assoc]]
        rw [h6]
        simp [List.append_assoc]

/-- Claim C4: the built withdrawal payload is exactly the concatenation of
the 8-byte discriminator (first 8 bytes of the SHA-256 of the preimage
global:withdraw_v2_clean), the 32-byte nullifier hash, the 4-byte
little-endian length prefix with value 256, the 256-byte proof, the 32-byte
root, the little-endian fee and a little-endian refund of zero — 348 bytes in
all; and the account list appends exactly the shard at shardIndex for a
sharded-ring result, nothing for a state-history result, and the shard at
index floor((leafIndex mod 2560) / 128) when no local tier matched. -/
theorem claim_C4_buildWithdrawInstruction (sha256 : List Nat → List Nat)
    (derivePda : List Nat → PoolConfig → String)
    (pc : PoolConfig) (note : Note) (recipient protocol : String) (fee : Nat)
    (proof nh root : List Nat)
    (hsha : (sha256 withdrawPreimage).length = 32)
    (hn : nh.length = 32) (hp : proof.length = 256) (hr : root.length = 32) :
    (((sha256 withdrawPreimage).take 8 ++ nh ++ [0, 1, 0, 0] ++ proof ++ root
        ++ u64le fee ++ u64le 0).length = 348)
    ∧ (∀ f k s, pc.shardPdas.get? k = some s →
        buildWithdrawInstruction sha256 derivePda pc note recipient protocol fee
            proof nh root (some { found := f, source := .sharded_ring, shardIndex := some k })
          = .ok { programId := pc.programId,
                  keys := baseWithdrawKeys pc (derivePda nh pc) recipient protocol
                    ++ [{ pubkey := s, isSigner := false, isWritable := false }],
                  data := (sha256 withdrawPreimage).take 8 ++ nh ++ [0, 1, 0, 0]
                    ++ proof ++ root ++ u64le fee ++ u64le 0 })
    ∧ (∀ f si,
        buildWithdrawInstruction sha256 derivePda pc note recipient protocol fee
            proof nh root (some { found := f, source := .state_history, shardIndex := si })
          = .ok { programId := pc.programId,
                  keys := baseWithdrawKeys pc (derivePda nh pc) recipient protocol,
                  data := (sha256 withdrawPreimage).take 8 ++ nh ++ [0, 1, 0, 0]
                    ++ proof ++ root ++ u64le fee ++ u64le 0 })
    ∧ (∀ s, pc.shardPdas.get? (computeShardIndex note.leafIndex) = some s →
        buildWithdrawInstruction sha256 derivePda pc note recipient protocol fee
            proof nh root none
          = .ok { programId := pc.programId,
                  keys := baseWithdrawKeys pc (derivePda nh pc) recipient protocol
                    ++ [{ pubkey := s, isSigner := false, isWritable := false }],
                  data := (sha256 withdrawPreimage).take 8 ++ nh ++ [0, 1, 0, 0]
                    ++ proof ++ root ++ u64le fee ++ u64le 0 }) := by
  have hdlen : ((sha256 withdrawPreimage).take 8).length = 8 := by
    simp [List.length_take, hsha]
  have hdata : buildInstructionData ((sha256 withdrawPreimage).take 8) nh proof root fee =
      (sha256 withdrawPreimage).take 8 ++ nh ++ [0, 1, 0, 0] ++ proof ++ root
        ++ u64le fee ++ u64le 0 :=
    buildInstructionData_concat _ _ _ _ _ hdlen hn hp hr
  refine ⟨?_, ?_, ?_, ?_⟩
  · simp [hdlen, hn, hp, hr, u64le_length]
  · intro f k s hget
    simp only [buildWithdrawInstruction, hget, okBind, hdata]
    rfl
  · intro f si
    simp only [buildWithdrawInstruction, okBind, hdata]
    rfl
  · intro s hget
    simp only [buildWithdrawInstruction, hget, okBind, hdata]
    rfl

/-- Concrete pool configuration for the C4 witness. -/
def c4pc : PoolConfig :=
  { programId := "prog", statePda := "state", vaultPda := "vault",
    vkPda := "vk", metadataPda := "meta", shardPdas := ["sh0", "sh1"] }

/-- Concrete note for the C4 witness (leafIndex 130, fallback shard 1). -/
def c4note : Note :=
  { nullifierSecret := 0, noteSecret := 0, commitment := [],
    rootAfter := 0, siblings := [], leafIndex := 130 }

theorem claim_C4_witness :
    buildWithdrawInstruction (fun _ => List.replicate 32 7) (fun _ _ => "npda")
        c4pc c4note "rcpt" "proto" 3 (List.replicate 256 9) (List.replicate 32 4)
        (List.replicate 32 5) none
      = .ok { programId := c4pc.programId,
              keys := baseWithdrawKeys c4pc "npda" "rcpt" "proto"
                ++ [{ pubkey := "sh1", isSigner := false, isWritable := false }],
              data := ((fun (_ : List Nat) => List.replicate 32 7) withdrawPreimage).take 8
                ++ List.replicate 32 4 ++ [0, 1, 0, 0] ++ List.replicate 256 9
                ++ List.replicate 32 5 ++ u64le 3 ++ u64le 0 } :=
  (claim_C4_buildWithdrawInstruction (fun _ => List.replicate 32 7) (fun _ _ => "npda")
    c4pc c4note "rcpt" "proto" 3 (List.replicate 256 9) (List.replicate 32 4)
    (List.replicate 32 5) (by simp) (by simp) (by simp) (by simp)).2.2.2 "sh1" rfl

/-! ## Batch withdrawal (handleWithdraw in the withdraw-bar component)

The handler runs two phases over the selected notes.  Phase 2 prepares each
note (proof generation); a failure there is rethrown with a batch-level
message, aborting the remaining items.  Phase 3 submits each prepared item to
the protocol service; a per-item failure (an error result or a thrown
submission error) is recorded via setError and the loop continues with the
next item.  Successes and duplicate-nullifier results both push the
transaction signature.  Preparation and submission are external effects and
enter as function parameters indexed by item position. -/

/-- Outcome of one protocol submission (Phase 3). -/
inductive SubmitOutcome where
  | success (sig : String)
  | duplicate (sig : String)
  | failedStatus (err : String)
  | thrown (err : String)
deriving DecidableEq, Repr

/-- Phase 2 loop: prepare each item in order; the first failure aborts the
whole batch with a batch-level error message. -/
def phase2 (prepare : Nat → Except String Unit) : List Nat → Except String Unit
  | [] => .ok ()
  | i :: rest =>
    match prepare i with
    | .ok _ => phase2 prepare rest
    | .error e =>
      .error ("Failed to generate proof for note " ++ toString (i + 1) ++ ": " ++ e)

/-- Phase 3 loop: submit each item; successes and duplicates collect the
signature, failures are recorded and the loop continues. -/
def phase3 (submit : Nat → SubmitOutcome) : List Nat → List String × List String
  | [] => ([], [])
  | i :: rest =>
    let tail := phase3 submit rest
    match submit i with
    | .success sig => (sig :: tail.1, tail.2)
    | .duplicate sig => (sig :: tail.1, tail.2)
    | .failedStatus e =>
      (tail.1, ("Withdrawal " ++ toString (i + 1) ++ " failed: " ++ e) :: tail.2)
    | .thrown e =>
      (tail.1, ("Withdrawal " ++ toString (i + 1) ++ " submit failed: " ++ e) :: tail.2)

/-- Result of the batch handler: collected signatures, the per-item error
records (setError calls of Phase 3), and the batch-level error if the whole
run was aborted. -/
structure BatchResult where
  txSignatures : List String
  errorLog : List String
  batchError : Option String
deriving DecidableEq, Repr

/-- Model of handleWithdraw over n selected notes: Phase 2 first (abort on
error), then Phase 3 with per-item isolation; if no submission succeeded an
overall failure message is set. -/
def handleWithdrawBatch (n : Nat) (prepare : Nat → Except String Unit)
    (submit : Nat → SubmitOutcome) : BatchResult :=
  match phase2 prepare (List.range n) with
  | .error e => { txSignatures := [], errorLog := [], batchError := some e }
  | .ok _ =>
    let r := phase3 submit (List.range n)
    { txSignatures := r.1, errorLog := r.2,
      batchError :=
        if r.1.isEmpty then some "All withdrawals failed. Please try again." else none }

/-- Successful submission outcomes (success and idempotent duplicate). -/
def isSuccessOutcome : SubmitOutcome → Bool
  | .success _ => true
  | .duplicate _ => true
  | _ => false

theorem phase2_ok (prepare : Nat → Except String Unit) (l : List Nat)
    (h : ∀ i ∈ l, (prepare i).isOk) : phase2 prepare l = .ok () := by
  induction l with
  | nil => rfl
  | cons i rest ih =>
    have hi := h i (List.mem_cons_self _ _)
    match hpi : prepare i with
    | .ok _ => simpa [phase2, hpi] using ih (fun j hj => h j (List.mem_cons_of_mem _ hj))
    | .error e => simp [hpi, Except.isOk, Except.toBool] at hi

theorem phase3_counts (submit : Nat → SubmitOutcome) (l : List Nat) :
    (phase3 submit l).1.length = l.countP (fun i => isSuccessOutcome (submit i))
    ∧ (phase3 submit l).2.length = l.countP (fun i => !isSuccessOutcome (submit i))
    ∧ (phase3 submit l).1.length + (phase3 submit l).2.length = l.length := by
  induction l with
  | nil => simp [phase3]
  | cons i rest ih =>
    rcases ih with ⟨ih1, ih2, ih3⟩
    match hsi : submit i with
    | .success sig =>
      have hhead : isSuccessOutcome (submit i) = true := by rw [hsi]; rfl
      refine ⟨?_, ?_, ?_⟩
      · simp [phase3, hsi, List.countP_cons, hsi ▸ hhead, ih1]
      · simp [phase3, hsi, List.countP_cons, hsi ▸ hhead, ih2]
      · simp only [phase3, hsi, List.length_cons]
        omega
    | .duplicate sig =>
      have hhead : isSuccessOutcome (submit i) = true := by rw [hsi]; rfl
      refine ⟨?_, ?_, ?_⟩
      · simp [phase3, hsi, List.countP_cons, hsi ▸ hhead, ih1]
      · simp [phase3, hsi, List.countP_cons, hsi ▸ hhead, ih2]
      · simp only [phase3, hsi, List.length_cons]
        omega
    | .failedStatus e =>
      have hhead : isSuccessOutcome (submit i) = false := by rw [hsi]; rfl
      refine ⟨?_, ?_, ?_⟩
      · simp [phase3, hsi, List.countP_cons, hsi ▸ hhead, ih1]
      · simp [phase3, hsi, List.countP_cons, hsi ▸ hhead, ih2]
      · simp only [phase3, hsi, List.length_cons]
        omega
    | .thrown e =>
      have hhead : isSuccessOutcome (submit i) = false := by rw [hsi]; rfl
      refine ⟨?_, ?_, ?_⟩
      · simp [phase3, hsi, List.countP_cons, hsi ▸ hhead, ih1]
      · simp [phase3, hsi, List.countP_cons, hsi ▸ hhead, ih2]
      · simp only [phase3, hsi, List.length_cons]
        omega

/-- Preparation oracle for the C5 counterexample: the first note fails. -/
def c5prepFail (i : Nat) : Except String Unit :=
  if i = 0 then .error "proving engine error" else .ok ()

/-- Claim C5 counterexample: a fatal error raised while preparing one item
(proof generation is part of processing an item) aborts the whole batch: with
2 notes where item 1 fails in Phase 2, the sibling item 2 produces neither a
success nor a recorded per-item failure, refuting the claim that every
sibling item is still processed. -/
theorem claim_C5_counterexample :
    handleWithdrawBatch 2 c5prepFail (fun _ => .success "sig")
      = { txSignatures := [], errorLog := [],
          batchError := some "Failed to generate proof for note 1: proving engine error" }
    ∧ (fun _ : Nat => SubmitOutcome.success "sig") 1 = .success "sig" := by
  constructor
  · rfl
  · rfl

/-- Claim C5 amended: once every item passed proof preparation, submission
failures are isolated per item: every item is processed, each success or
duplicate contributes one signature, each failed or thrown submission
contributes one recorded failure, and the counts sum to the batch size.
Preparation-phase failures, by contrast, abort the whole batch. -/
theorem claim_C5_batch_isolation (n : Nat) (prepare : Nat → Except String Unit)
    (submit : Nat → SubmitOutcome)
    (hprep : ∀ i, i < n → (prepare i).isOk) :
    (handleWithdrawBatch n prepare submit).batchError =
      (if (handleWithdrawBatch n prepare submit).txSignatures.isEmpty then
        some "All withdrawals failed. Please try again." else none)
    ∧ (handleWithdrawBatch n prepare submit).txSignatures.length =
        (List.range n).countP (fun i => isSuccessOutcome (submit i))
    ∧ (handleWithdrawBatch n prepare submit).errorLog.length =
        (List.range n).countP (fun i => !isSuccessOutcome (submit i))
    ∧ (handleWithdrawBatch n prepare submit).txSignatures.length +
        (handleWithdrawBatch n prepare submit).errorLog.length = n := by
  have h2 : phase2 prepare (List.range n) = .ok () :=
    phase2_ok prepare _ (fun i hi => hprep i (List.mem_range.mp hi))
  rcases phase3_counts submit (List.range n) with ⟨h1, hE, hS⟩
  simp only [handleWithdrawBatch, h2]
  exact ⟨trivial, h1, hE, by simpa using hS⟩

/-- Submission oracle for the C5 witness: item 2 (index 1) raises a fatal
on-chain submission error, items 1 and 3 succeed. -/
def c5submit (i : Nat) : SubmitOutcome :=
  if i = 1 then .thrown "on-chain failure" else .success ("sig" ++ toString i)

theorem claim_C5_witness :
    (handleWithdrawBatch 3 (fun _ => .ok ()) c5submit).txSignatures.length = 2
    ∧ (handleWithdrawBatch 3 (fun _ => .ok ()) c5submit).errorLog.length = 1 := by
  have h := claim_C5_batch_isolation 3 (fun _ => .ok ()) c5submit
    (fun i _ => by simp [Except.isOk, Except.toBool])
  refine ⟨?_, ?_⟩
  · rw [h.2.1]; decide
  · rw [h.2.2.1]; decide

/-! ## Endpoint health and rotation (resilient-connection module)

The endpoint-health map keyed by URL tracks a cooldown deadline and a
consecutive-failure count (COOLDOWN_MS is 2000).  executeWithRotation walks
the endpoint list skipping endpoints in cooldown, retries transient errors on
the same endpoint (maxRetries 2 per endpoint), rotates immediately on a
rate-limit error after disabling the endpoint, clears the bookkeeping on
success, and — when every endpoint was skipped — waits the shortest cooldown
(plus 100 ms) and retries the first available endpoint once.  The network is
the oracle parameter b, mapping endpoint and attempt number to an outcome.
The dual-layer admission gates (token bucket and semaphore) only delay
execution and do not influence endpoint selection, so they are not modeled.
Time is a parameter: a call runs at a given instant, and only the wait branch
advances it. -/

/-- Source interface EndpointHealth. -/
structure EndpointHealth where
  disabledUntil : Nat
  failCount : Nat
deriving DecidableEq, Repr

/-- Endpoint-health map (JS Map keyed by URL), as an association list. -/
abbrev HealthMap := List (String × EndpointHealth)

/-- Map lookup. -/
def hmLookup : HealthMap → String → Option EndpointHealth
  | [], _ => none
  | (k, v) :: rest, url => if k == url then some v else hmLookup rest url

/-- Map deletion. -/
def hmDelete : HealthMap → String → HealthMap
  | [], _ => []
  | (k, v) :: rest, url =>
    if k == url then hmDelete rest url else (k, v) :: hmDelete rest url

/-- Map insertion or replacement. -/
def hmSet (m : HealthMap) (url : String) (h : EndpointHealth) : HealthMap :=
  (url, h) :: hmDelete m url

/-- Model of isEndpointAvailable: an endpoint with no health record is
available; an expired cooldown deletes the record and re-enables the
endpoint; otherwise the endpoint is skipped.  Returns the availability
verdict and the updated map. -/
def isEndpointAvailable (now : Nat) (m : HealthMap) (url : String) :
    Bool × HealthMap :=
  match hmLookup m url with
  | none => (true, m)
  | some h =>
    if h.disabledUntil ≤ now then (true, hmDelete m url)
    else (false, m)

/-- Model of markEndpointDisabled: increment the consecutive-failure count and
set the cooldown deadline to now plus the fixed 2000 ms window. -/
def markEndpointDisabled (now : Nat) (m : HealthMap) (url : String) : HealthMap :=
  let existing := (hmLookup m url).getD { disabledUntil := 0, failCount := 0 }
  hmSet m url { disabledUntil := now + 2000, failCount := existing.failCount + 1 }

/-- Model of markEndpointHealthy: drop the failure bookkeeping. -/
def markEndpointHealthy (m : HealthMap) (url : String) : HealthMap :=
  hmDelete m url

/-- Network oracle outcome for one attempt on one endpoint. -/
inductive TryResult where
  | success
  | rateLimit
  | transient
deriving DecidableEq, Repr

/-- Outcome of tryEndpointWithRetry. -/
inductive CallOutcome where
  | ok
  | errRateLimit
  | errTransient
deriving DecidableEq, Repr

/-- Model of tryEndpointWithRetry: a rate-limit response is rethrown
immediately without another attempt on this endpoint; other errors are
retried on the same endpoint up to maxRetries attempts.  Returns the outcome
and the number of attempts used. -/
def tryEndpointWithRetry (b : String → Nat → TryResult) (url : String)
    (maxRetries : Nat) (attempt : Nat) : CallOutcome × Nat :=
  match b url attempt with
  | .success => (.ok, attempt)
  | .rateLimit => (.errRateLimit, attempt)
  | .transient =>
    if _h : attempt < maxRetries then
      tryEndpointWithRetry b url maxRetries (attempt + 1)
    else (.errTransient, attempt)
termination_by maxRetries - attempt

/-- One selection of an endpoint by the rotation loop: which endpoint, at
which instant, and how many attempts the per-endpoint retry used. -/
structure SelEntry where
  url : String
  time : Nat
  attempts : Nat
deriving DecidableEq, Repr

/-- Result of a rotation pass: the endpoint that served the call (if any),
the final health map, the selection trace, and whether any endpoint was
tried. -/
structure RotateOut where
  winner : Option String
  map : HealthMap
  trace : List SelEntry
  triedAny : Bool

/-- Main loop of executeWithRotation over the endpoint list: skip endpoints
in cooldown, stop at the first success (clearing its bookkeeping), disable a
rate-limited endpoint and continue with the next one. -/
def rotatePass (b : String → Nat → TryResult) (now : Nat) :
    List String → HealthMap → RotateOut
  | [], m => { winner := none, map := m, trace := [], triedAny := false }
  | url :: rest, m =>
    let av := isEndpointAvailable now m url
    if av.1 = false then
      rotatePass b now rest av.2
    else
      let t := tryEndpointWithRetry b url 2 1
      match t.1 with
      | .ok =>
        { winner := some url, map := markEndpointHealthy av.2 url,
          trace := [{ url := url, time := now, attempts := t.2 }], triedAny := true }
      | .errRateLimit =>
        let r := rotatePass b now rest (markEndpointDisabled now av.2 url)
        { winner := r.winner, map := r.map,
          trace := { url := url, time := now, attempts := t.2 } :: r.trace,
          triedAny := true }
      | .errTransient =>
        let r := rotatePass b now rest av.2
        { winner := r.winner, map := r.map,
          trace := { url := url, time := now, attempts := t.2 } :: r.trace,
          triedAny := true }

/-- Remaining cooldown of one endpoint (0 when available). -/
def endpointRemaining (now : Nat) (m : HealthMap) (url : String) : Nat :=
  match hmLookup m url with
  | none => 0
  | some h => h.disabledUntil - now

/-- Model of getShortestCooldownMs: 0 when some endpoint is available,
otherwise the minimum remaining cooldown (0 for an empty list). -/
def shortestCooldownMs (now : Nat) (m : HealthMap) (eps : List String) : Nat :=
  if eps.any (fun u => endpointRemaining now m u == 0) then 0
  else
    match eps.map (endpointRemaining now m) with
    | [] => 0
    | x :: xs => xs.foldl min x

/-- Retry loop after the cooldown wait: try the first available endpoint; any
error there is rethrown (no further rotation in this loop). -/
def retryPass (b : String → Nat → TryResult) (now2 : Nat) :
    List String → HealthMap → RotateOut
  | [], m => { winner := none, map := m, trace := [], triedAny := false }
  | url :: rest, m =>
    let av := isEndpointAvailable now2 m url
    if av.1 = false then
      retryPass b now2 rest av.2
    else
      let t := tryEndpointWithRetry b url 2 1
      match t.1 with
      | .ok =>
        { winner := some url, map := markEndpointHealthy av.2 url,
          trace := [{ url := url, time := now2, attempts := t.2 }], triedAny := true }
      | .errRateLimit =>
        { winner := none, map := markEndpointDisabled now2 av.2 url,
          trace := [{ url := url, time := now2, attempts := t.2 }], triedAny := true }
      | .errTransient =>
        { winner := none, map := av.2,
          trace := [{ url := url, time := now2, attempts := t.2 }], triedAny := true }

/-- Model of executeWithRotation: the main rotation pass; if no endpoint was
even tried (all in cooldown), wait the shortest remaining cooldown plus a
100 ms buffer — provided it is positive and at most the 2000 ms window — and
retry once.  A missing winner models the AllEndpointsUnavailable failure. -/
def executeWithRotationModel (b : String → Nat → TryResult) (now : Nat)
    (eps : List String) (m : HealthMap) : RotateOut :=
  let r := rotatePass b now eps m
  match r.winner with
  | some _ => r
  | none =>
    if r.triedAny then r
    else
      let waitMs := shortestCooldownMs now r.map eps
      if 0 < waitMs ∧ waitMs ≤ 2000 then
        let r2 := retryPass b (now + waitMs + 100) eps r.map
        { winner := r2.winner, map := r2.map,
          trace := r.trace ++ r2.trace, triedAny := r.triedAny || r2.triedAny }
      else r

theorem hmLookup_delete_self (m : HealthMap) (url : String) :
    hmLookup (hmDelete m url) url = none := by
  induction m with
  | nil => rfl
  | cons p rest ih =>
    obtain ⟨k, v⟩ := p
    by_cases hk : k = url
    · simp [hmDelete, hk, ih]
    · simp [hmDelete, hmLookup, hk, ih]

theorem hmLookup_delete_ne (m : HealthMap) (u url : String) (h : u ≠ url) :
    hmLookup (hmDelete m u) url = hmLookup m url := by
  induction m with
  | nil => rfl
  | cons p rest ih =>
    obtain ⟨k, v⟩ := p
    by_cases hk : k = u
    · subst hk
      simp [hmDelete, hmLookup, ih, h]
    · by_cases hk2 : k = url
      · simp [hmDelete, hmLookup, hk, hk2, Ne.symm h]
      · simp [hmDelete, hmLookup, hk, hk2, ih]

theorem hmLookup_set_self (m : HealthMap) (url : String) (x : EndpointHealth) :
    hmLookup (hmSet m url x) url = some x := by
  simp [hmSet, hmLookup]

theorem hmLookup_set_ne (m : HealthMap) (u url : String) (x : EndpointHealth)
    (h : u ≠ url) :
    hmLookup (hmSet m u x) url = hmLookup m url := by
  simp [hmSet, hmLookup, h, hmLookup_delete_ne m u url h]

/-- Availability updates preserve the record of a different endpoint. -/
theorem isEndpointAvailable_preserves (now : Nat) (m : HealthMap) (u url : String)
    (hu : u ≠ url) :
    hmLookup (isEndpointAvailable now m u).2 url = hmLookup m url := by
  unfold isEndpointAvailable
  cases hlu : hmLookup m u with
  | none => rfl
  | some hu' =>
    by_cases hle : hu'.disabledUntil ≤ now
    · simp [hle, hmLookup_delete_ne m u url hu]
    · simp [hle]

/-- Every selection recorded by the main rotation pass happens at the pass
instant, with the attempt count of the per-endpoint retry. -/
theorem rotatePass_trace_shape (b : String → Nat → TryResult) (now : Nat)
    (eps : List String) (m : HealthMap) :
    ∀ e ∈ (rotatePass b now eps m).trace,
      e.time = now ∧ e.attempts = (tryEndpointWithRetry b e.url 2 1).2 := by
  induction eps generalizing m with
  | nil => intro e he; simp [rotatePass] at he
  | cons u rest ih =>
    intro e he
    by_cases hava : (isEndpointAvailable now m u).1 = false
    · simp only [rotatePass, hava] at he
      simp at he
      exact ih _ e he
    · have hava' : (isEndpointAvailable now m u).1 = true := by
        simpa using hava
      cases hout : (tryEndpointWithRetry b u 2 1).1 with
      | ok =>
        simp only [rotatePass, hava', hout] at he
        simp at he
        subst he
        exact ⟨rfl, rfl⟩
      | errRateLimit =>
        simp only [rotatePass, hava', hout] at he
        simp at he
        rcases he with he | he
        · subst he
          exact ⟨rfl, rfl⟩
        · exact ih _ e he
      | errTransient =>
        simp only [rotatePass, hava', hout] at he
        simp at he
        rcases he with he | he
        · subst he
          exact ⟨rfl, rfl⟩
        · exact ih _ e he

/-- While an endpoint is inside its cooldown window, the main rotation pass at
that instant never selects it and leaves its health record untouched. -/
theorem rotatePass_skip (b : String → Nat → TryResult) (now : Nat)
    (eps : List String) (m : HealthMap) (url : String) (h : EndpointHealth)
    (hl : hmLookup m url = some h) (hc : now < h.disabledUntil) :
    (∀ e ∈ (rotatePass b now eps m).trace, e.url ≠ url)
    ∧ hmLookup (rotatePass b now eps m).map url = some h := by
  induction eps generalizing m with
  | nil =>
    refine ⟨?_, ?_⟩
    · intro e he
      simp [rotatePass] at he
    · simpa [rotatePass] using hl
  | cons u rest ih =>
    by_cases hu : u = url
    · subst hu
      have hava : (isEndpointAvailable now m u).1 = false := by
        unfold isEndpointAvailable
        rw [hl]
        simp [Nat.not_le.mpr hc]
      have hav2 : (isEndpointAvailable now m u).2 = m := by
        unfold isEndpointAvailable
        rw [hl]
        simp [Nat.not_le.mpr hc]
      have heq : rotatePass b now (u :: rest) m
          = rotatePass b now rest (isEndpointAvailable now m u).2 := by
        simp [rotatePass, hava]
      rw [heq, hav2]
      exact ih m hl
    · have hpres : hmLookup (isEndpointAvailable now m u).2 url = some h := by
        rw [isEndpointAvailable_preserves now m u url hu]
        exact hl
      by_cases hava : (isEndpointAvailable now m u).1 = false
      · have heq : rotatePass b now (u :: rest) m
            = rotatePass b now rest (isEndpointAvailable now m u).2 := by
          simp [rotatePass, hava]
        rw [heq]
        exact ih _ hpres
      · have hava' : (isEndpointAvailable now m u).1 = true := by
          simpa using hava
        cases hout : (tryEndpointWithRetry b u 2 1).1 with
        | ok =>
          refine ⟨?_, ?_⟩
          · intro e he
            simp only [rotatePass, hava', hout] at he
            simp at he
            subst he
            exact hu
          · simp only [rotatePass, hava', hout]
            simpa [markEndpointHealthy, hmLookup_delete_ne _ u url hu] using hpres
        | errRateLimit =>
          have hpres2 : hmLookup (markEndpointDisabled now
              (isEndpointAvailable now m u).2 u) url = some h := by
            unfold markEndpointDisabled
            rw [hmLookup_set_ne _ u url _ hu]
            exact hpres
          obtain ⟨iha, ihb⟩ := ih _ hpres2
          refine ⟨?_, ?_⟩
          · intro e he
            simp only [rotatePass, hava', hout] at he
            simp at he
            rcases he with he | he
            · subst he
              exact hu
            · exact iha e he
          · simp only [rotatePass, hava', hout]
            exact ihb
        | errTransient =>
          obtain ⟨iha, ihb⟩ := ih _ hpres
          refine ⟨?_, ?_⟩
          · intro e he
            simp only [rotatePass, hava', hout] at he
            simp at he
            rcases he with he | he
            · subst he
              exact hu
            · exact iha e he
          · simp only [rotatePass, hava', hout]
            exact ihb

/-- Every selection recorded by the cooldown-wait retry loop happens at its
instant, with the attempt count of the per-endpoint retry. -/
theorem retryPass_trace_shape (b : String → Nat → TryResult) (now2 : Nat)
    (eps : List String) (m : HealthMap) :
    ∀ e ∈ (retryPass b now2 eps m).trace,
      e.time = now2 ∧ e.attempts = (tryEndpointWithRetry b e.url 2 1).2 := by
  induction eps generalizing m with
  | nil => intro e he; simp [retryPass] at he
  | cons u rest ih =>
    intro e he
    by_cases hava : (isEndpointAvailable now2 m u).1 = false
    · simp only [retryPass, hava] at he
      simp at he
      exact ih _ e he
    · have hava' : (isEndpointAvailable now2 m u).1 = true := by
        simpa using hava
      cases hout : (tryEndpointWithRetry b u 2 1).1 with
      | ok =>
        simp only [retryPass, hava', hout] at he
        simp at he
        subst he
        exact ⟨rfl, rfl⟩
      | errRateLimit =>
        simp only [retryPass, hava', hout] at he
        simp at he
        subst he
        exact ⟨rfl, rfl⟩
      | errTransient =>
        simp only [retryPass, hava', hout] at he
        simp at he
        subst he
        exact ⟨rfl, rfl⟩

/-- While an endpoint is inside its cooldown window, the retry loop at that
instant never selects it. -/
theorem retryPass_skip (b : String → Nat → TryResult) (now2 : Nat)
    (eps : List String) (m : HealthMap) (url : String) (h : EndpointHealth)
    (hl : hmLookup m url = some h) (hc : now2 < h.disabledUntil) :
    ∀ e ∈ (retryPass b now2 eps m).trace, e.url ≠ url := by
  induction eps generalizing m with
  | nil => intro e he; simp [retryPass] at he
  | cons u rest ih =>
    intro e he
    by_cases hu : u = url
    · subst hu
      have hava : (isEndpointAvailable now2 m u).1 = false := by
        unfold isEndpointAvailable
        rw [hl]
        simp [Nat.not_le.mpr hc]
      have hav2 : (isEndpointAvailable now2 m u).2 = m := by
        unfold isEndpointAvailable
        rw [hl]
        simp [Nat.not_le.mpr hc]
      simp only [retryPass, hava] at he
      simp [hav2] at he
      exact ih m hl e he
    · have hpres : hmLookup (isEndpointAvailable now2 m u).2 url = some h := by
        rw [isEndpointAvailable_preserves now2 m u url hu]
        exact hl
      by_cases hava : (isEndpointAvailable now2 m u).1 = false
      · simp only [retryPass, hava] at he
        simp at he
        exact ih _ hpres e he
      · have hava' : (isEndpointAvailable now2 m u).1 = true := by
          simpa using hava
        cases hout : (tryEndpointWithRetry b u 2 1).1 with
        | ok =>
          simp only [retryPass, hava', hout] at he
          simp at he
          subst he
          exact hu
        | errRateLimit =>
          simp only [retryPass, hava', hout] at he
          simp at he
          subst he
          exact hu
        | errTransient =>
          simp only [retryPass, hava', hout] at he
          simp at he
          subst he
          exact hu

/-- The endpoint that served a main-pass call has no failure bookkeeping in
the resulting map. -/
theorem rotatePass_winner_clean (b : String → Nat → TryResult) (now : Nat)
    (eps : List String) (m : HealthMap) (u : String)
    (hw : (rotatePass b now eps m).winner = some u) :
    hmLookup (rotatePass b now eps m).map u = none := by
  induction eps generalizing m with
  | nil => simp [rotatePass] at hw
  | cons v rest ih =>
    by_cases hava : (isEndpointAvailable now m v).1 = false
    · simp only [rotatePass, hava] at hw ⊢
      simp at hw ⊢
      exact ih _ hw
    · have hava' : (isEndpointAvailable now m v).1 = true := by
        simpa using hava
      cases hout : (tryEndpointWithRetry b v 2 1).1 with
      | ok =>
        simp only [rotatePass, hava', hout] at hw ⊢
        simp at hw
        subst hw
        simp [markEndpointHealthy, hmLookup_delete_self]
      | errRateLimit =>
        simp only [rotatePass, hava', hout] at hw ⊢
        exact ih _ hw
      | errTransient =>
        simp only [rotatePass, hava', hout] at hw ⊢
        exact ih _ hw

/-- The endpoint that served a retry-pass call has no failure bookkeeping in
the resulting map. -/
theorem retryPass_winner_clean (b : String → Nat → TryResult) (now2 : Nat)
    (eps : List String) (m : HealthMap) (u : String)
    (hw : (retryPass b now2 eps m).winner = some u) :
    hmLookup (retryPass b now2 eps m).map u = none := by
  induction eps generalizing m with
  | nil => simp [retryPass] at hw
  | cons v rest ih =>
    by_cases hava : (isEndpointAvailable now2 m v).1 = false
    · simp only [retryPass, hava] at hw ⊢
      simp at hw ⊢
      exact ih _ hw
    · have hava' : (isEndpointAvailable now2 m v).1 = true := by
        simpa using hava
      cases hout : (tryEndpointWithRetry b v 2 1).1 with
      | ok =>
        simp only [retryPass, hava', hout] at hw ⊢
        simp at hw
        subst hw
        simp [markEndpointHealthy, hmLookup_delete_self]
      | errRateLimit =>
        simp only [retryPass, hava', hout] at hw ⊢
        simp at hw
      | errTransient =>
        simp only [retryPass, hava', hout] at hw ⊢
        simp at hw

/-- Decomposition of the trace of a full call: every selection belongs to the
main pass, or to the retry pass taken after the cooldown wait (which happens
only when the main pass tried nothing). -/
theorem model_trace_mem (b : String → Nat → TryResult) (now : Nat)
    (eps : List String) (m : HealthMap) (e : SelEntry)
    (he : e ∈ (executeWithRotationModel b now eps m).trace) :
    e ∈ (rotatePass b now eps m).trace ∨
      (e ∈ (retryPass b
          (now + shortestCooldownMs now (rotatePass b now eps m).map eps + 100)
          eps (rotatePass b now eps m).map).trace
        ∧ (rotatePass b now eps m).triedAny = false) := by
  simp only [executeWithRotationModel] at he
  rcases hwin : (rotatePass b now eps m).winner with _ | u
  · rw [hwin] at he
    simp only at he
    by_cases htried : (rotatePass b now eps m).triedAny = true
    · rw [if_pos htried] at he
      exact Or.inl he
    · have htried' : (rotatePass b now eps m).triedAny = false := by
        simpa using htried
      rw [if_neg (by simp [htried'])] at he
      by_cases hw : 0 < shortestCooldownMs now (rotatePass b now eps m).map eps
          ∧ shortestCooldownMs now (rotatePass b now eps m).map eps ≤ 2000
      · rw [if_pos hw] at he
        simp only [List.mem_append] at he
        rcases he with he | he
        · exact Or.inl he
        · exact Or.inr ⟨he, htried'⟩
      · rw [if_neg hw] at he
        exact Or.inl he
  · rw [hwin] at he
    exact Or.inl he

/-- Case split on a full call: it is either just the main pass, or the main
pass (nothing tried) followed by the wait-and-retry pass. -/
theorem model_cases (b : String → Nat → TryResult) (now : Nat)
    (eps : List String) (m : HealthMap) :
    executeWithRotationModel b now eps m = rotatePass b now eps m
    ∨ ((rotatePass b now eps m).winner = none
       ∧ (rotatePass b now eps m).triedAny = false
       ∧ executeWithRotationModel b now eps m =
          { winner := (retryPass b
              (now + shortestCooldownMs now (rotatePass b now eps m).map eps + 100)
              eps (rotatePass b now eps m).map).winner,
            map := (retryPass b
              (now + shortestCooldownMs now (rotatePass b now eps m).map eps + 100)
              eps (rotatePass b now eps m).map).map,
            trace := (rotatePass b now eps m).trace ++ (retryPass b
              (now + shortestCooldownMs now (rotatePass b now eps m).map eps + 100)
              eps (rotatePass b now eps m).map).trace,
            triedAny := (rotatePass b now eps m).triedAny || (retryPass b
              (now + shortestCooldownMs now (rotatePass b now eps m).map eps + 100)
              eps (rotatePass b now eps m).map).triedAny }) := by
  simp only [executeWithRotationModel]
  rcases hwin : (rotatePass b now eps m).winner with _ | v
  · by_cases htried : (rotatePass b now eps m).triedAny = true
    · exact Or.inl (by simp [htried])
    · have htried' : (rotatePass b now eps m).triedAny = false := by
        simpa using htried
      by_cases hwc : 0 < shortestCooldownMs now (rotatePass b now eps m).map eps
          ∧ shortestCooldownMs now (rotatePass b now eps m).map eps ≤ 2000
      · exact Or.inr ⟨rfl, htried', by simp [htried', hwc]⟩
      · exact Or.inl (by simp [htried', hwc])
  · exact Or.inl rfl

/-- Claim C6: after a rate-limit response an endpoint is placed in cooldown
immediately and is never selected — by the current call or any later call on
the resulting map — before its cooldown deadline; a rate-limited endpoint
receives exactly one attempt (the call rotates instead of retrying it); a
successful call clears the serving endpoint's failure bookkeeping; an
endpoint whose cooldown has expired is available again; and in the two
endpoint scenario, a rate limit on A makes the same call serve from B while A
is left in cooldown until now + 2000 with its failure counted. -/
theorem claim_C6_rate_limit_rotation (b : String → Nat → TryResult) (now : Nat)
    (eps : List String) (m : HealthMap) (url : String) (h : EndpointHealth) :
    (hmLookup m url = some h →
      ∀ e ∈ (executeWithRotationModel b now eps m).trace,
        e.url = url → h.disabledUntil ≤ e.time)
    ∧ (b url 1 = .rateLimit →
        ∀ e ∈ (executeWithRotationModel b now eps m).trace,
          e.url = url → e.attempts = 1)
    ∧ (∀ u, (executeWithRotationModel b now eps m).winner = some u →
        hmLookup (executeWithRotationModel b now eps m).map u = none)
    ∧ (hmLookup m url = some h → h.disabledUntil ≤ now →
        (isEndpointAvailable now m url).1 = true)
    ∧ (∀ A B : String, A ≠ B → b A 1 = .rateLimit → b B 1 = .success →
        executeWithRotationModel b now [A, B] [] =
          { winner := some B,
            map := [(A, { disabledUntil := now + 2000, failCount := 1 })],
            trace := [{ url := A, time := now, attempts := 1 },
                      { url := B, time := now, attempts := 1 }],
            triedAny := true }) := by
  refine ⟨?_, ?_, ?_, ?_, ?_⟩
  · intro hl e he hurl
    have hmain : ∀ e2 ∈ (rotatePass b now eps m).trace,
        e2.url = url → h.disabledUntil ≤ e2.time := by
      intro e2 he2 hurl2
      have hshape := rotatePass_trace_shape b now eps m e2 he2
      by_cases hcase : h.disabledUntil ≤ now
      · rw [hshape.1]
        exact hcase
      · have hskip := (rotatePass_skip b now eps m url h hl (by omega)).1 e2 he2
        exact absurd hurl2 hskip
    rcases model_trace_mem b now eps m e he with hm | ⟨hm, _⟩
    · exact hmain e hm hurl
    · have hshape := retryPass_trace_shape b _ eps (rotatePass b now eps m).map e hm
      by_cases hcase : h.disabledUntil ≤
          now + shortestCooldownMs now (rotatePass b now eps m).map eps + 100
      · rw [hshape.1]
        exact hcase
      · have hn : now < h.disabledUntil := by omega
        have hpres := (rotatePass_skip b now eps m url h hl hn).2
        have hskip := retryPass_skip b _ eps (rotatePass b now eps m).map url h hpres
          (by omega) e hm
        exact absurd hurl hskip
  · intro hRL e he hurl
    have hatt : e.attempts = (tryEndpointWithRetry b e.url 2 1).2 := by
      rcases model_trace_mem b now eps m e he with hm | ⟨hm, _⟩
      · exact (rotatePass_trace_shape b now eps m e hm).2
      · exact (retryPass_trace_shape b _ eps (rotatePass b now eps m).map e hm).2
    rw [hatt, hurl]
    unfold tryEndpointWithRetry
    rw [hRL]
  · intro u hw
    rcases model_cases b now eps m with hc | ⟨_, _, hc⟩
    · rw [hc] at hw ⊢
      exact rotatePass_winner_clean b now eps m u hw
    · rw [hc] at hw ⊢
      exact retryPass_winner_clean b _ eps (rotatePass b now eps m).map u hw
  · intro hl hle
    unfold isEndpointAvailable
    rw [hl]
    simp [hle]
  · intro A B hAB hA hB
    have hABf : (A == B) = false := by
      simpa using hAB
    have htA : tryEndpointWithRetry b A 2 1 = (.errRateLimit, 1) := by
      unfold tryEndpointWithRetry
      rw [hA]
    have htB : tryEndpointWithRetry b B 2 1 = (.ok, 1) := by
      unfold tryEndpointWithRetry
      rw [hB]
    simp [executeWithRotationModel, rotatePass, isEndpointAvailable, hmLookup,
      htA, htB, markEndpointDisabled, markEndpointHealthy, hmSet, hmDelete, hABf]

theorem claim_C6_witness :
    executeWithRotationModel
        (fun u _ => if u = "A" then TryResult.rateLimit else TryResult.success)
        50 ["A", "B"] [] =
      { winner := some "B",
        map := [("A", { disabledUntil := 2050, failCount := 1 })],
        trace := [{ url := "A", time := 50, attempts := 1 },
                  { url := "B", time := 50, attempts := 1 }],
        triedAny := true } :=
  (claim_C6_rate_limit_rotation
      (fun u _ => if u = "A" then TryResult.rateLimit else TryResult.success)
      50 [] [] "x" { disabledUntil := 0, failCount := 0 }).2.2.2.2
    "A" "B" (by decide) (by simp) (by simp)

/-- Health map after a first rate-limit on endpoint A at time 0. -/
def c7m1 : HealthMap := markEndpointDisabled 0 [] "A"

/-- Health map after a second consecutive rate-limit on A at time 1000. -/
def c7m2 : HealthMap := markEndpointDisabled 1000 c7m1 "A"

/-- Claim C7 counterexample: after the second consecutive rate-limit response
the disabled interval is exactly the fixed 2000 ms base window again — the
failure count is incremented but the window is not extended, refuting the
claim that the second interval is longer than the base window. -/
theorem claim_C7_counterexample :
    hmLookup c7m1 "A" = some { disabledUntil := 2000, failCount := 1 }
    ∧ hmLookup c7m2 "A" = some { disabledUntil := 3000, failCount := 2 }
    ∧ ¬ (2000 < 3000 - 1000) := by
  refine ⟨rfl, rfl, by decide⟩

/-- Claim C7 amended: markEndpointDisabled always sets the cooldown deadline
to now plus the fixed 2000 ms window and increments the consecutive-failure
count; repeated failures do not lengthen the disabled interval. -/
theorem claim_C7_cooldown_window_fixed (now : Nat) (m : HealthMap) (url : String) :
    hmLookup (markEndpointDisabled now m url) url =
      some { disabledUntil := now + 2000,
             failCount :=
               ((hmLookup m url).getD { disabledUntil := 0, failCount := 0 }).failCount + 1 } := by
  unfold markEndpointDisabled
  exact hmLookup_set_self m url _

/-! ## Transaction confirmation (ws-confirmation module)

WebSocket confirmation is disabled in the source; confirmTransactionWsFirst
short-circuits on the process-wide confirmed-signature set and otherwise runs
HTTP polling (poll interval 1000 ms, doubled wait after a rate limit).  The
network is the oracle parameter poll, giving the outcome of the k-th
getSignatureStatus call.  Polling time advances by the waits between polls;
the fuel parameter only bounds the recursion and is chosen at least the
number of iterations the timeout allows (each iteration advances time by at
least 1000 ms), so it never cuts a run short.

A status result with a set error field makes the source throw a
transaction-failed error inside the try block of the polling loop; the catch
of that same loop treats every non-rate-limit error — including this one — as
a transient poll error and continues polling.  The model reproduces this
control flow faithfully. -/

/-- Status value of one getSignatureStatus response. -/
structure PollStatus where
  hasErr : Bool
  confirmationStatus : String
deriving DecidableEq, Repr

/-- Outcome of one poll network call: a status (possibly null), a rate-limit
error, or another error. -/
inductive PollStep where
  | ok (status : Option PollStatus)
  | errRateLimit
  | errOther
deriving DecidableEq, Repr

/-- Commitment-level check of the polling loop. -/
def statusReached (commitment cs : String) : Bool :=
  cs == commitment || cs == "finalized" || (commitment == "confirmed" && cs == "confirmed")

/-- Result of the polling loop together with the number of network calls
issued: either confirmed, or the thrown HTTP-confirmation-timeout error. -/
inductive HttpPollOutcome where
  | confirmed (netCalls : Nat)
  | timedOut (netCalls : Nat)
deriving DecidableEq, Repr

/-- Model of confirmViaHttpPolling.  Each iteration checks the elapsed-time
bound, short-circuits on the confirmed-signature set, then issues one
getSignatureStatus call.  An error status is rethrown but caught by the same
catch, which treats it as a transient poll error and continues after the
normal 1000 ms sleep; a rate limit waits 2000 ms; a reached commitment level
returns. -/
def confirmViaHttpPolling (poll : Nat → PollStep) (commitment : String)
    (cset : List String) (signature : String) (timeoutMs : Nat) :
    Nat → Nat → Nat → HttpPollOutcome
  | 0, _, k => .timedOut k
  | fuel + 1, t, k =>
    if timeoutMs ≤ t then .timedOut k
    else if cset.contains signature then .confirmed k
    else
      match poll k with
      | .ok none =>
        confirmViaHttpPolling poll commitment cset signature timeoutMs fuel (t + 1000) (k + 1)
      | .ok (some st) =>
        if st.hasErr then
          confirmViaHttpPolling poll commitment cset signature timeoutMs fuel (t + 1000) (k + 1)
        else if statusReached commitment st.confirmationStatus then
          .confirmed (k + 1)
        else
          confirmViaHttpPolling poll commitment cset signature timeoutMs fuel (t + 1000) (k + 1)
      | .errRateLimit =>
        confirmViaHttpPolling poll commitment cset signature timeoutMs fuel (t + 2000) (k + 1)
      | .errOther =>
        confirmViaHttpPolling poll commitment cset signature timeoutMs fuel (t + 1000) (k + 1)

/-- Result at the confirm interface. -/
structure ConfirmResult where
  confirmed : Bool
  error : Option String
deriving DecidableEq, Repr

/-- Model of confirmTransactionWsFirst: short-circuit on the local
finalized-set with zero network calls; otherwise poll, mark the signature
confirmed on success, and turn a polling timeout into a non-fatal result
carrying the error message.  Returns the result, the updated
confirmed-signature set, and the number of network calls issued. -/
def confirmTransactionWsFirst (poll : Nat → PollStep) (commitment : String)
    (cset : List String) (signature : String) (timeoutMs fuel : Nat) :
    ConfirmResult × List String × Nat :=
  if cset.contains signature then
    ({ confirmed := true, error := none }, cset, 0)
  else
    match confirmViaHttpPolling poll commitment cset signature timeoutMs fuel 0 0 with
    | .confirmed n => ({ confirmed := true, error := none }, signature :: cset, n)
    | .timedOut n =>
      ({ confirmed := false,
         error := some ("HTTP confirmation timeout after " ++ toString timeoutMs ++ "ms") },
       cset, n)

/-- Claim C8: a confirm call for a signature already in the local
finalized-set returns a confirmed result with zero network calls, and after
any confirm call that reports confirmed, a subsequent confirm call for the
same signature issues zero network calls (idempotent short-circuit). -/
theorem claim_C8_confirm_idempotent (poll poll2 : Nat → PollStep)
    (commitment commitment2 : String) (cset : List String) (signature : String)
    (timeoutMs fuel timeoutMs2 fuel2 : Nat) :
    (signature ∈ cset →
      confirmTransactionWsFirst poll commitment cset signature timeoutMs fuel =
        ({ confirmed := true, error := none }, cset, 0))
    ∧ ((confirmTransactionWsFirst poll commitment cset signature timeoutMs fuel).1.confirmed
          = true →
        confirmTransactionWsFirst poll2 commitment2
            (confirmTransactionWsFirst poll commitment cset signature timeoutMs fuel).2.1
            signature timeoutMs2 fuel2 =
          ({ confirmed := true, error := none },
           (confirmTransactionWsFirst poll commitment cset signature timeoutMs fuel).2.1,
           0)) := by
  constructor
  · intro hmem
    have hc : cset.contains signature = true := by
      simpa using hmem
    simp [confirmTransactionWsFirst, hc, hmem]
  · intro hconf
    by_cases hmem : signature ∈ cset
    · have hc : cset.contains signature = true := by
        simpa using hmem
      have h1 : confirmTransactionWsFirst poll commitment cset signature timeoutMs fuel
          = ({ confirmed := true, error := none }, cset, 0) := by
        simp [confirmTransactionWsFirst, hc, hmem]
      rw [h1]
      simp [confirmTransactionWsFirst, hc, hmem]
    · have hc2 : cset.contains signature = false := by
        simpa using hmem
      rcases hout : confirmViaHttpPolling poll commitment cset signature timeoutMs fuel 0 0 with
        n | n
      · have h1 : confirmTransactionWsFirst poll commitment cset signature timeoutMs fuel
            = ({ confirmed := true, error := none }, signature :: cset, n) := by
          simp [confirmTransactionWsFirst, hc2, hout, hmem]
        rw [h1]
        have hmem2 : signature ∈ signature :: cset := by simp
        have hc3 : (signature :: cset).contains signature = true := by
          simp
        simp [confirmTransactionWsFirst, hc3, hmem2]
      · have h1 : confirmTransactionWsFirst poll commitment cset signature timeoutMs fuel
            = ({ confirmed := false,
                 error := some ("HTTP confirmation timeout after "
                   ++ toString timeoutMs ++ "ms") }, cset, n) := by
          simp [confirmTransactionWsFirst, hc2, hout, hmem]
        rw [h1] at hconf
        simp at hconf

theorem claim_C8_witness :
    confirmTransactionWsFirst (fun _ => .ok none) "confirmed" ["tx1"] "tx1" 60000 10 =
      ({ confirmed := true, error := none }, ["tx1"], 0) :=
  (claim_C8_confirm_idempotent (fun _ => .ok none) (fun _ => .ok none)
    "confirmed" "confirmed" ["tx1"] "tx1" 60000 10 60000 10).1 (by simp)

/-- Poll oracle that always reports an explicit on-chain failure. -/
def c9pollFail (_k : Nat) : PollStep :=
  .ok (some { hasErr := true, confirmationStatus := "confirmed" })

/-- Poll oracle for a transaction that never lands (always null status). -/
def c9pollNever (_k : Nat) : PollStep := .ok none

/-- Claim C9 at its failing input: with an explicit on-chain failure reported
by the very first poll, the thrown transaction-failed error is swallowed by
the polling loop's own catch, polling continues for the full 60-second
timeout (60 network calls), and the confirm interface returns the same
non-fatal timeout result as for a transaction that never lands — the failure
is neither fatal, nor propagated immediately, nor distinguishable from a
timeout. -/
theorem claim_C9_failure_swallowed :
    confirmTransactionWsFirst c9pollFail "confirmed" [] "sig" 60000 100 =
      ({ confirmed := false, error := some "HTTP confirmation timeout after 60000ms" }, [], 60)
    ∧ confirmTransactionWsFirst c9pollNever "confirmed" [] "sig" 60000 100 =
      confirmTransactionWsFirst c9pollFail "confirmed" [] "sig" 60000 100 := by
  constructor
  · rfl
  · rfl

end ZeroK
